import Mathlib

/-!
A shallow embedding of the POS-CRM order/debt-ledger core
(`src/server/routes/orders.js`, `src/server/routes/users.js`,
`src/server/database/connection.js`).

Tables are modelled as Lean lists of rows; money amounts and stock
quantities are modelled as `Int` (the schema stores `DECIMAL(10,2)` /
`INTEGER`; all claims concern sums, signs and clamping, which are
integer-shaped).  SQL statements touching a single table become functions
on that table's list; the `pg` transaction of the order-edit route is
modelled by running the body against a working copy and returning the
original database on any uncaught error (ROLLBACK).  Storage faults are
injected explicitly: the create route (which uses plain pooled queries,
one autocommit statement each) takes an optional index of the write that
throws; the edit route takes a flag per debt-ledger insert (those are
wrapped in try/catch in the source) plus one flag for an aborting fault
anywhere else in the transaction.
-/

/-- Row of `products` (`users.js` DDL: price DECIMAL, stock_quantity INTEGER,
stock_status ∈ {enabled,disabled}, category ∈ {accessories,smartphones}). -/
structure Product where
  id : Nat
  price : Int
  category : String
  stock_status : String
  stock_quantity : Int
deriving Repr, DecidableEq

/-- Row of `orders`.  `client_id` is NULL for guest orders. -/
structure Order where
  id : Nat
  client_id : Option Nat
  guest_name : Option String
  guest_email : Option String
  guest_phone : Option String
  total_amount : Int
  status : String
deriving Repr, DecidableEq

/-- Row of `order_items`. -/
structure OrderItem where
  order_id : Nat
  product_id : Nat
  quantity : Int
  price : Int
deriving Repr, DecidableEq

/-- Row of `user_debt_adjustments`.  `currency` is nullable in the DDL. -/
structure DebtAdjustment where
  user_id : Nat
  adjustment_amount : Int
  adjustment_type : String
  currency : Option String
  notes : Option String
  created_by : Nat
deriving Repr, DecidableEq

/-- Row of `users` (only the fields the modelled routes read). -/
structure User where
  id : Nat
  role : String
deriving Repr, DecidableEq

/-- The database state touched by the core. -/
structure DB where
  users : List User
  products : List Product
  orders : List Order
  orderItems : List OrderItem
  debtAdjustments : List DebtAdjustment
deriving Repr, DecidableEq

/-- The authenticated actor (`req.user`). -/
structure Actor where
  id : Nat
  isAdmin : Bool
deriving Repr, DecidableEq

/-- `SELECT ... FROM products WHERE id = $1` (first matching row). -/
def findProduct (ps : List Product) (pid : Nat) : Option Product :=
  ps.find? (fun p => p.id == pid)

/-- `SELECT ... FROM orders WHERE id = $1` (first matching row). -/
def findOrder (os : List Order) (oid : Nat) : Option Order :=
  os.find? (fun o => o.id == oid)

/-- `UPDATE products SET stock_quantity = stock_quantity + delta WHERE id = pid`. -/
def updateStock (ps : List Product) (pid : Nat) (delta : Int) : List Product :=
  ps.map (fun p => if p.id == pid then { p with stock_quantity := p.stock_quantity + delta } else p)

/-- JS truthiness of a numeric/NULL client id: non-null and nonzero. -/
def truthyId : Option Nat → Bool
  | none => false
  | some c => c != 0

/- ---------------------------------------------------------------------
Debt aggregation read path (`users.js`, GET /:id/profile, lines 123-148).
--------------------------------------------------------------------- -/

/-- `SELECT COALESCE(SUM(adjustment_amount),0) FROM user_debt_adjustments
WHERE user_id = $1 GROUP BY currency`, read off for one currency. -/
def ledgerSum (adjs : List DebtAdjustment) (uid : Nat) (cur : String) : Int :=
  (adjs.filter (fun a => a.user_id == uid && a.currency == some cur)).foldl
    (fun s a => s + a.adjustment_amount) 0

/-- `const clampNonNegative = (n) => (n < 0 ? 0 : n)`. -/
def clampNonNegative (n : Int) : Int := if n < 0 then 0 else n

/-- `const eurDebt = clampNonNegative(-eurSum)`. -/
def eurDebt (adjs : List DebtAdjustment) (uid : Nat) : Int :=
  clampNonNegative (-(ledgerSum adjs uid "EUR"))

/-- `const mkdDebt = clampNonNegative(-mkdSum)`. -/
def mkdDebt (adjs : List DebtAdjustment) (uid : Nat) : Int :=
  clampNonNegative (-(ledgerSum adjs uid "MKD"))

/-- `const totalDebt = clampNonNegative(eurDebt + mkdDebt)`. -/
def totalDebt (adjs : List DebtAdjustment) (uid : Nat) : Int :=
  clampNonNegative (eurDebt adjs uid + mkdDebt adjs uid)

/- ---------------------------------------------------------------------
Order creation (`orders.js`, POST /, lines 185-330).

The route issues plain pooled queries (autocommit, one statement each);
there is no BEGIN/COMMIT around its writes.  `failAt` is the index of the
write statement that throws (counted over executed writes: 0 = the order
header insert; then, per line, the item insert and the stock update; then
each executed debt-ledger insert); the route's catch-all returns a 500
and the writes already executed stay committed.
--------------------------------------------------------------------- -/

/-- One entry of the request's `items` array. -/
structure ReqItem where
  productId : Nat
  quantity : Int
deriving Repr, DecidableEq

/-- Body of `POST /orders`. -/
structure CreateReq where
  items : List ReqItem
  guestName : Option String
  guestEmail : Option String
  guestPhone : Option String
  clientId : Option Nat
  status : Option String
deriving Repr, DecidableEq

/-- `body('status').optional().isIn(['pending', 'completed'])`. -/
def validStatus : Option String → Bool
  | none => true
  | some s => s == "pending" || s == "completed"

/-- The express-validator chain of the create route (the email-format rule
is abstracted away: no claim depends on it). -/
def validCreateReq (req : CreateReq) : Bool :=
  !req.items.isEmpty &&
  req.items.all (fun it => decide (1 ≤ it.productId) && decide (1 ≤ it.quantity)) &&
  (match req.guestName with | none => true | some n => n != "") &&
  (match req.clientId with | none => true | some c => decide (1 ≤ c)) &&
  validStatus req.status

/-- A line validated against the catalog (`validatedItems.push({...})`). -/
structure VItem where
  productId : Nat
  quantity : Int
  price : Int
  category : String
deriving Repr, DecidableEq

/-- The read-only validation loop of the create route: look each line up in
the catalog, reject missing / disabled / under-stocked products, snapshot
the live price, and accumulate the grand total and the per-currency totals
(smartphones → EUR, everything else → MKD). -/
def validateItems (ps : List Product) : List ReqItem → Except String (List VItem × Int × Int × Int)
  | [] => Except.ok ([], 0, 0, 0)
  | it :: rest =>
    match findProduct ps it.productId with
    | none => Except.error ("Product " ++ toString it.productId ++ " not found")
    | some p =>
      if p.stock_status == "disabled" then Except.error "Product is not available"
      else if p.stock_quantity < it.quantity then Except.error "Insufficient stock"
      else
        match validateItems ps rest with
        | Except.error e => Except.error e
        | Except.ok (vs, tot, eur, mkd) =>
          let lineTotal := p.price * it.quantity
          Except.ok
            ({ productId := p.id, quantity := it.quantity, price := p.price,
               category := p.category } :: vs,
             tot + lineTotal,
             if p.category == "smartphones" then eur + lineTotal else eur,
             if p.category == "smartphones" then mkd else mkd + lineTotal)

/-- State of the create route's item/stock write loop. -/
structure LoopResult where
  products : List Product
  orderItems : List OrderItem
  ctr : Nat
  ok : Bool
deriving Repr, DecidableEq

/-- The mutation loop of the create route: per validated line, insert the
`order_items` row then decrement the product's stock, each an autocommit
write that `failAt` can make throw (stopping the loop, keeping what was
already written). -/
def insertItemsLoop (failAt : Option Nat) (oid : Nat) (ps : List Product)
    (ois : List OrderItem) (ctr : Nat) : List VItem → LoopResult
  | [] => ⟨ps, ois, ctr, true⟩
  | v :: rest =>
    if failAt == some ctr then ⟨ps, ois, ctr, false⟩
    else
      let ois1 := ois ++ [⟨oid, v.productId, v.quantity, v.price⟩]
      if failAt == some (ctr + 1) then ⟨ps, ois1, ctr + 1, false⟩
      else
        insertItemsLoop failAt oid (updateStock ps v.productId (-v.quantity)) ois1 (ctr + 2) rest

/-- Fresh order id handed back by `INSERT ... RETURNING id`. -/
def nextOrderId (db : DB) : Nat := db.orders.length + 1

/-- `notes` column written by the create route's debt-ledger inserts. -/
def pendingNotes (oid : Nat) : String :=
  "Debt increase from pending order #" ++ toString oid

/-- HTTP outcome of the create route. -/
inductive CreateRes where
  | created (orderId : Nat) (totalAmount : Int)
  | badRequest (msg : String)
  | forbidden (msg : String)
  | serverError
deriving Repr, DecidableEq

/-- Outcomes rejected before any mutation (400 validation, 403 auth). -/
def CreateRes.isReject : CreateRes → Bool
  | CreateRes.badRequest _ => true
  | CreateRes.forbidden _ => true
  | _ => false

/-- Order header the create route inserts (client or guest shape). -/
def mkNewOrder (db : DB) (actor : Actor) (req : CreateReq) (tot : Int) : Order :=
  { id := nextOrderId db,
    client_id := if req.guestName.isSome then none else some (req.clientId.getD actor.id),
    guest_name := if req.guestName.isSome then req.guestName else none,
    guest_email := if req.guestName.isSome then some (req.guestEmail.getD "") else none,
    guest_phone := if req.guestName.isSome then req.guestPhone else none,
    total_amount := tot,
    status := req.status.getD "pending" }

/-- The create route's two conditional debt-ledger inserts ("Record debt
increase ONLY when a pending order is created for a client"), each an
autocommit write `failAt` can make throw (committing nothing further). -/
def pendingLedgerInserts (failAt : Option Nat) (ctr : Nat) (actorId clientId0 oid : Nat)
    (eur mkd tot : Int) (db2 : DB) : CreateRes × DB :=
  if 0 < eur then
    if failAt == some ctr then (CreateRes.serverError, db2)
    else
      let db3 : DB := { db2 with debtAdjustments := db2.debtAdjustments ++
        [⟨clientId0, -eur, "manual_reduction", some "EUR", some (pendingNotes oid), actorId⟩] }
      if 0 < mkd then
        if failAt == some (ctr + 1) then (CreateRes.serverError, db3)
        else
          (CreateRes.created oid tot,
           { db3 with debtAdjustments := db3.debtAdjustments ++
             [⟨clientId0, -mkd, "manual_reduction", some "MKD", some (pendingNotes oid), actorId⟩] })
      else (CreateRes.created oid tot, db3)
  else
    if 0 < mkd then
      if failAt == some ctr then (CreateRes.serverError, db2)
      else
        (CreateRes.created oid tot,
         { db2 with debtAdjustments := db2.debtAdjustments ++
           [⟨clientId0, -mkd, "manual_reduction", some "MKD", some (pendingNotes oid), actorId⟩] })
    else (CreateRes.created oid tot, db2)

/-- The create route's write phase: insert the order header, run the
item/stock loop, then the conditional debt-ledger inserts. -/
def createWrites (actor : Actor) (req : CreateReq) (failAt : Option Nat) (db : DB)
    (vitems : List VItem) (totalAmount eurPendingTotal mkdPendingTotal : Int) :
    CreateRes × DB :=
  if failAt == some 0 then (CreateRes.serverError, db)
  else
    let db1 : DB := { db with orders := db.orders ++ [mkNewOrder db actor req totalAmount] }
    let r := insertItemsLoop failAt (nextOrderId db) db1.products db1.orderItems 1 vitems
    let db2 : DB := { db1 with products := r.products, orderItems := r.orderItems }
    if !r.ok then (CreateRes.serverError, db2)
    else if !req.guestName.isSome && req.clientId.getD actor.id != 0 &&
            req.status.getD "pending" == "pending" then
      pendingLedgerInserts failAt r.ctr actor.id (req.clientId.getD actor.id) (nextOrderId db)
        eurPendingTotal mkdPendingTotal totalAmount db2
    else (CreateRes.created (nextOrderId db) totalAmount, db2)

/-- `POST /orders`: authorization checks, read-only validation, then the
unprotected sequence of autocommit writes (header, items + stock, and the
conditional per-currency debt-ledger inserts). -/
def createOrder (db : DB) (actor : Actor) (req : CreateReq) (failAt : Option Nat) :
    CreateRes × DB :=
  if !validCreateReq req then (CreateRes.badRequest "Validation failed", db)
  else if req.clientId.isSome && !actor.isAdmin then
    (CreateRes.forbidden "Only admins can assign orders to other clients", db)
  else if req.guestName.isSome && !actor.isAdmin then
    (CreateRes.forbidden "Only admins can create guest orders", db)
  else
    match validateItems db.products req.items with
    | Except.error msg => (CreateRes.badRequest msg, db)
    | Except.ok (vitems, totalAmount, eurPendingTotal, mkdPendingTotal) =>
      createWrites actor req failAt db vitems totalAmount eurPendingTotal mkdPendingTotal

/- Claim-side aggregates used to state properties of the create route. -/

/-- Per-currency line-total sums of a request against a catalog
(smartphone lines → EUR component, all other lines → MKD component). -/
def lineTotalsByCurrency (ps : List Product) : List ReqItem → Int × Int
  | [] => (0, 0)
  | it :: rest =>
    let acc := lineTotalsByCurrency ps rest
    match findProduct ps it.productId with
    | none => acc
    | some p =>
      let lineTotal := p.price * it.quantity
      if p.category == "smartphones" then (acc.1 + lineTotal, acc.2) else (acc.1, acc.2 + lineTotal)

/-- Stock decrements the create route performs for its validated lines. -/
def applyDecrements (ps : List Product) : List VItem → List Product
  | [] => ps
  | v :: rest => applyDecrements (updateStock ps v.productId (-v.quantity)) rest

/-- `order_items` rows the create route inserts for its validated lines. -/
def mkOrderItems (oid : Nat) (vs : List VItem) : List OrderItem :=
  vs.map (fun v => ⟨oid, v.productId, v.quantity, v.price⟩)

/-- Σ quantity × price over a list of order-item rows. -/
def lineSum (l : List OrderItem) : Int :=
  (l.map (fun oi => oi.quantity * oi.price)).sum

/-- The order-item rows currently stored for one order. -/
def itemsOf (db : DB) (oid : Nat) : List OrderItem :=
  db.orderItems.filter (fun oi => oi.order_id == oid)

/-- Debt-ledger rows the create route inserts (one per currency with a
positive pending total, only for a non-guest truthy client and status
`pending`). -/
def createLedgerRows (actor : Actor) (req : CreateReq) (oid : Nat) (eur mkd : Int) :
    List DebtAdjustment :=
  let clientId0 := req.clientId.getD actor.id
  if !req.guestName.isSome && clientId0 != 0 && req.status.getD "pending" == "pending" then
    (if 0 < eur then
      [⟨clientId0, -eur, "manual_reduction", some "EUR", some (pendingNotes oid), actor.id⟩]
     else []) ++
    (if 0 < mkd then
      [⟨clientId0, -mkd, "manual_reduction", some "MKD", some (pendingNotes oid), actor.id⟩]
     else [])
  else []

/- ---------------------------------------------------------------------
Order update (`orders.js`, PUT /:id, lines 680-940).

The route wraps its writes in one `pg` transaction (BEGIN ... COMMIT, with
ROLLBACK on any uncaught error); rollback is modelled by returning the
original database.  The four debt-ledger inserts are individually wrapped
in try/catch in the source ("Continue with order update even if debt
adjustment fails"), so each gets its own injected-failure flag; `txFault`
injects an aborting storage failure anywhere else in the transaction.
--------------------------------------------------------------------- -/

/-- One entry of the edit request's `items` array (price caller-supplied). -/
structure EditItem where
  productId : Nat
  quantity : Int
  price : Int
deriving Repr, DecidableEq

/-- Injected failures for the four try/catch-wrapped ledger inserts. -/
structure LedgerFaults where
  remEur : Bool
  remMkd : Bool
  addEur : Bool
  addMkd : Bool
deriving Repr, DecidableEq

/-- The fault-free schedule. -/
def noLedgerFaults : LedgerFaults := ⟨false, false, false, false⟩

/-- HTTP outcome of the update route. -/
inductive EditRes where
  | ok (orderId : Nat) (status : String) (itemsUpdated : Bool)
  | notFound
  | badRequest (msg : String)
  | serverError
deriving Repr, DecidableEq

/-- The express-validator chain of the update route. -/
def validEditReq (status : Option String) (items : Option (List EditItem)) : Bool :=
  validStatus status &&
  (match items with
   | none => true
   | some l =>
     !l.isEmpty &&
     l.all (fun it =>
       decide (1 ≤ it.productId) && decide (1 ≤ it.quantity) && decide (0 ≤ it.price)))

/-- `notes` column of the removed-items ledger inserts. -/
def remNotes (oid : Nat) : String :=
  "Items removed from order #" ++ toString oid ++ " - debt increased"

/-- `notes` column of the added-items ledger inserts. -/
def addNotes (oid : Nat) : String :=
  "Items added to order #" ++ toString oid ++ " - debt reduced"

/-- `SELECT oi.*, p.category FROM order_items oi JOIN products p ... WHERE
oi.order_id = $1`: the order's current items with their category. -/
def currentItemsJoin (db : DB) (oid : Nat) : List (OrderItem × String) :=
  db.orderItems.filterMap (fun oi =>
    if oi.order_id == oid then
      (findProduct db.products oi.product_id).map (fun p => (oi, p.category))
    else none)

/-- Restore-stock loop: increment each current item's product stock. -/
def restoreStock (ps : List Product) : List (OrderItem × String) → List Product
  | [] => ps
  | (oi, _) :: rest => restoreStock (updateStock ps oi.product_id oi.quantity) rest

/-- Per-currency Σ quantity × snapshot price of the current (about to be
removed) items. -/
def removedTotals : List (OrderItem × String) → Int × Int
  | [] => (0, 0)
  | (oi, cat) :: rest =>
    let acc := removedTotals rest
    let itemTotal := oi.quantity * oi.price
    if cat == "smartphones" then (acc.1 + itemTotal, acc.2) else (acc.1, acc.2 + itemTotal)

/-- Insert-new-items loop: per line, re-read the product, throw on a
missing product or insufficient (post-restoration) stock, decrement stock
and insert the row at the caller-supplied price. -/
def insertEditItems (oid : Nat) (ps : List Product) (ois : List OrderItem) :
    List EditItem → Except String (List Product × List OrderItem)
  | [] => Except.ok (ps, ois)
  | it :: rest =>
    match findProduct ps it.productId with
    | none => Except.error ("Product " ++ toString it.productId ++ " not found")
    | some p =>
      if p.stock_quantity < it.quantity then
        Except.error ("Insufficient stock for product " ++ toString it.productId)
      else
        insertEditItems oid (updateStock ps it.productId (-it.quantity))
          (ois ++ [⟨oid, it.productId, it.quantity, it.price⟩]) rest

/-- Per-currency Σ quantity × supplied price of the new lines, the category
looked up in the live products table (a missing product's undefined
category falls into the MKD bucket, as in the source's `?.category`). -/
def addedTotals (ps : List Product) : List EditItem → Int × Int
  | [] => (0, 0)
  | it :: rest =>
    let acc := addedTotals ps rest
    let itemTotal := it.quantity * it.price
    match findProduct ps it.productId with
    | some p =>
      if p.category == "smartphones" then (acc.1 + itemTotal, acc.2)
      else (acc.1, acc.2 + itemTotal)
    | none => (acc.1, acc.2 + itemTotal)

/-- The optional `UPDATE orders SET status = $1 WHERE id = $2` step. -/
def db1Of (db : DB) (orderId : Nat) (status : Option String) : DB :=
  match status with
  | some s =>
    { db with orders :=
        db.orders.map (fun o => if o.id == orderId then { o with status := s } else o) }
  | none => db

/-- Removed-items ledger rows the edit route appends: one per currency with
a positive removed total, for a truthy client, unless that insert's
injected failure is swallowed by its try/catch. -/
def remRows (lf : LedgerFaults) (clientId : Option Nat) (actorId orderId : Nat)
    (inc : Int × Int) : List DebtAdjustment :=
  (if 0 < inc.1 && truthyId clientId && !lf.remEur then
    [⟨clientId.getD 0, inc.1, "manual_reduction", some "EUR", some (remNotes orderId), actorId⟩]
   else []) ++
  (if 0 < inc.2 && truthyId clientId && !lf.remMkd then
    [⟨clientId.getD 0, inc.2, "manual_reduction", some "MKD", some (remNotes orderId), actorId⟩]
   else [])

/-- Added-items ledger rows the edit route appends: one negative row per
currency with a positive added total, same guards as `remRows`. -/
def addRows (lf : LedgerFaults) (clientId : Option Nat) (actorId orderId : Nat)
    (dec : Int × Int) : List DebtAdjustment :=
  (if 0 < dec.1 && truthyId clientId && !lf.addEur then
    [⟨clientId.getD 0, -dec.1, "manual_reduction", some "EUR", some (addNotes orderId), actorId⟩]
   else []) ++
  (if 0 < dec.2 && truthyId clientId && !lf.addMkd then
    [⟨clientId.getD 0, -dec.2, "manual_reduction", some "MKD", some (addNotes orderId), actorId⟩]
   else [])

/-- `PUT /orders/:id`: validation, existence check, then the transactional
status/item update with its four swallowed-failure ledger inserts. -/
def editOrder (db : DB) (actorId : Nat) (orderId : Nat) (status : Option String)
    (items : Option (List EditItem)) (lf : LedgerFaults) (txFault : Bool) : EditRes × DB :=
  if !validEditReq status items then (EditRes.badRequest "Validation error", db)
  else if (findOrder db.orders orderId).isNone then (EditRes.notFound, db)
  else if txFault then (EditRes.serverError, db)
  else
    match items with
    | none => (EditRes.ok orderId (status.getD "unchanged") false, db1Of db orderId status)
    | some newItems =>
      let db1 : DB := db1Of db orderId status
      let cur := currentItemsJoin db1 orderId
      let clientId := (findOrder db1.orders orderId).bind (fun o => o.client_id)
      match insertEditItems orderId (restoreStock db1.products cur)
        (db1.orderItems.filter (fun oi => oi.order_id != orderId)) newItems with
      | Except.error _ => (EditRes.serverError, db)
      | Except.ok (ps2, ois2) =>
        let total := lineSum (ois2.filter (fun oi => oi.order_id == orderId))
        (EditRes.ok orderId (status.getD "unchanged") true,
         { db1 with products := ps2,
                    orders := db1.orders.map (fun o =>
                      if o.id == orderId then { o with total_amount := total } else o),
                    orderItems := ois2,
                    debtAdjustments := (db1.debtAdjustments ++
                      remRows lf clientId actorId orderId (removedTotals cur)) ++
                      addRows lf clientId actorId orderId (addedTotals ps2 newItems) })

/-- Rows whose try/catch-wrapped ledger insert the fault schedule `lf`
makes throw: within one edit call the removed-items rows are exactly the
appended rows with positive amount and the added-items rows exactly those
with negative amount, so currency and sign identify the insert. -/
def keptRow (lf : LedgerFaults) (row : DebtAdjustment) : Bool :=
  !(lf.remEur && row.currency == some "EUR" && decide (0 < row.adjustment_amount)) &&
  !(lf.remMkd && row.currency == some "MKD" && decide (0 < row.adjustment_amount)) &&
  !(lf.addEur && row.currency == some "EUR" && decide (row.adjustment_amount < 0)) &&
  !(lf.addMkd && row.currency == some "MKD" && decide (row.adjustment_amount < 0))

/-- 200-ok outcomes of the update route. -/
def EditRes.isOk : EditRes → Bool
  | EditRes.ok _ _ _ => true
  | _ => false

/- ---------------------------------------------------------------------
Manual debt update (`users.js`, PUT /:id/debt, lines 425-473).
--------------------------------------------------------------------- -/

/-- HTTP outcome of the manual debt-update route. -/
inductive DebtRes where
  | ok (msg : String) (userId : Nat) (debt : Int)
  | notFound
  | badRequest (msg : String)
  | forbidden
deriving Repr, DecidableEq

/-- The express-validator chain of the debt-update route (`debt` is any
number; `currency` optional ∈ {EUR, MKD}; `adjustment_type` optional
∈ {manual_reduction}). -/
def validDebtBody (currency : Option String) (adjType : Option String) : Bool :=
  (match currency with | none => true | some c => c == "EUR" || c == "MKD") &&
  (match adjType with | none => true | some t => t == "manual_reduction")

/-- `PUT /users/:id/debt`: admin-only, validate, check the user exists,
then insert the ledger row inside a try/catch whose failure is swallowed
("If table doesn't exist, just return success for now"), and report
success either way. -/
def updateUserDebt (db : DB) (actor : Actor) (userId : Nat) (debt : Int)
    (currency : Option String) (adjType : Option String) (notes : Option String)
    (insertFails : Bool) : DebtRes × DB :=
  if !actor.isAdmin then (DebtRes.forbidden, db)
  else if !validDebtBody currency adjType then (DebtRes.badRequest "Validation error", db)
  else if (db.users.find? (fun u => u.id == userId)).isNone then (DebtRes.notFound, db)
  else
    let db' : DB :=
      if insertFails then db
      else
        { db with debtAdjustments := db.debtAdjustments ++
            [⟨userId, debt, adjType.getD "manual_reduction", currency, notes, actor.id⟩] }
    (DebtRes.ok "Debt updated successfully" userId debt, db')

/- ---------------------------------------------------------------------
Concrete scenario data shared by the testable-property claims: smartphone
product 1 (price 500, stock 10), accessory product 2 (price 50, stock 20),
registered client 7, admin actor 1.
--------------------------------------------------------------------- -/

/-- Scenario catalog and empty order/ledger state. -/
def scenarioDB : DB :=
  { users := [⟨7, "client"⟩],
    products := [⟨1, 500, "smartphones", "enabled", 10⟩, ⟨2, 50, "accessories", "enabled", 20⟩],
    orders := [], orderItems := [], debtAdjustments := [] }

/-- Admin actor performing the scenario requests. -/
def scenarioAdmin : Actor := ⟨1, true⟩

/-- Scenario create request: 2 units of product 1 for client 7, pending. -/
def scenarioCreateReq : CreateReq := ⟨[⟨1, 2⟩], none, none, none, some 7, some "pending"⟩

/-- Database after the scenario's fault-free order creation. -/
def scenarioAfterCreate : DB := (createOrder scenarioDB scenarioAdmin scenarioCreateReq none).2

/-- Database after the scenario's fault-free item replacement (1 unit of
product 2 at price 50). -/
def scenarioAfterEdit : DB :=
  (editOrder scenarioAfterCreate 1 1 none (some [⟨2, 1, 50⟩]) noLedgerFaults false).2

theorem clampNonNegative_eq_max (n : Int) : clampNonNegative n = max 0 n := by
  simp only [clampNonNegative]
  omega

theorem clampNonNegative_nonneg (n : Int) : 0 ≤ clampNonNegative n := by
  simp only [clampNonNegative]
  omega

theorem ledgerSum_of_no_rows (adjs : List DebtAdjustment) (uid : Nat) (cur : String)
    (h : ∀ a ∈ adjs, a.user_id ≠ uid) : ledgerSum adjs uid cur = 0 := by
  have hf : adjs.filter (fun a => a.user_id == uid && a.currency == some cur) = [] := by
    apply List.filter_eq_nil_iff.mpr
    intro a ha
    have := h a ha
    simp [this]
  simp [ledgerSum, hf]

/-- C2: the debt read path computes eurDebt = max(0, −ΣEUR), mkdDebt =
max(0, −ΣMKD) independently, totalDebt = eurDebt + mkdDebt; a user with no
ledger rows reports 0/0; a positive net ledger sum reports debt 0, and
debts are never negative. -/
theorem debt_read_path_clamps_and_sums (adjs : List DebtAdjustment) (uid : Nat) :
    eurDebt adjs uid = max 0 (-(ledgerSum adjs uid "EUR")) ∧
    mkdDebt adjs uid = max 0 (-(ledgerSum adjs uid "MKD")) ∧
    totalDebt adjs uid = eurDebt adjs uid + mkdDebt adjs uid ∧
    ((∀ a ∈ adjs, a.user_id ≠ uid) → eurDebt adjs uid = 0 ∧ mkdDebt adjs uid = 0) ∧
    (0 < ledgerSum adjs uid "EUR" → eurDebt adjs uid = 0) ∧
    (0 < ledgerSum adjs uid "MKD" → mkdDebt adjs uid = 0) ∧
    0 ≤ eurDebt adjs uid ∧ 0 ≤ mkdDebt adjs uid := by
  refine ⟨clampNonNegative_eq_max _, clampNonNegative_eq_max _, ?_, ?_, ?_, ?_, ?_, ?_⟩
  · have h1 := clampNonNegative_nonneg (-(ledgerSum adjs uid "EUR"))
    have h2 := clampNonNegative_nonneg (-(ledgerSum adjs uid "MKD"))
    simp only [totalDebt, eurDebt, mkdDebt] at *
    simp only [clampNonNegative] at *
    omega
  · intro h
    rw [eurDebt, mkdDebt, ledgerSum_of_no_rows adjs uid "EUR" h,
        ledgerSum_of_no_rows adjs uid "MKD" h]
    constructor <;> rfl
  · intro h
    simp only [eurDebt, clampNonNegative]
    omega
  · intro h
    simp only [mkdDebt, clampNonNegative]
    omega
  · exact clampNonNegative_nonneg _
  · exact clampNonNegative_nonneg _

/-- Witness for C2 at a concrete ledger: user 5 has EUR rows summing to −30
and one MKD reduction row, user 9 has no rows. -/
theorem debt_read_path_clamps_and_sums_witness :
    eurDebt [⟨5, -50, "manual_reduction", some "EUR", none, 1⟩,
             ⟨5, 20, "manual_reduction", some "EUR", none, 1⟩,
             ⟨5, 7, "manual_reduction", some "MKD", none, 1⟩] 5 = 30 ∧
    mkdDebt [⟨5, -50, "manual_reduction", some "EUR", none, 1⟩,
             ⟨5, 20, "manual_reduction", some "EUR", none, 1⟩,
             ⟨5, 7, "manual_reduction", some "MKD", none, 1⟩] 5 = 0 ∧
    eurDebt ([] : List DebtAdjustment) 9 = 0 ∧ mkdDebt ([] : List DebtAdjustment) 9 = 0 := by
  have h := debt_read_path_clamps_and_sums
    [⟨5, -50, "manual_reduction", some "EUR", none, 1⟩,
     ⟨5, 20, "manual_reduction", some "EUR", none, 1⟩,
     ⟨5, 7, "manual_reduction", some "MKD", none, 1⟩] 5
  have h9 := (debt_read_path_clamps_and_sums ([] : List DebtAdjustment) 9).2.2.2.1
    (by intro a ha; simp at ha)
  refine ⟨?_, ?_, h9.1, h9.2⟩
  · rw [h.1]; decide
  · rw [h.2.1]; decide

/-- C4: starting from a pending order for client 7 holding 2 units of
smartphone product 1 at price 500 (stock 10 before creation, 8 after), an
edit replacing the item set with 1 unit of accessory product 2 at price 50
(stock 20) leaves product 1's stock at 10, product 2's stock at 19, sets
the order's total_amount to 50, and appends exactly two DebtAdjustment
rows for client 7: +1000 EUR for the removed items and −50 MKD for the
added items. -/
theorem scenario_edit_restores_stock_and_appends_two_rows :
    (createOrder scenarioDB scenarioAdmin scenarioCreateReq none).1 = CreateRes.created 1 1000 ∧
    findProduct scenarioAfterCreate.products 1 = some ⟨1, 500, "smartphones", "enabled", 8⟩ ∧
    (editOrder scenarioAfterCreate 1 1 none (some [⟨2, 1, 50⟩]) noLedgerFaults false).1 =
      EditRes.ok 1 "unchanged" true ∧
    findProduct scenarioAfterEdit.products 1 = some ⟨1, 500, "smartphones", "enabled", 10⟩ ∧
    findProduct scenarioAfterEdit.products 2 = some ⟨2, 50, "accessories", "enabled", 19⟩ ∧
    findOrder scenarioAfterEdit.orders 1 =
      some ⟨1, some 7, none, none, none, 50, "pending"⟩ ∧
    scenarioAfterEdit.debtAdjustments = scenarioAfterCreate.debtAdjustments ++
      [⟨7, 1000, "manual_reduction", some "EUR", some (remNotes 1), 1⟩,
       ⟨7, -50, "manual_reduction", some "MKD", some (addNotes 1), 1⟩] := by
  decide

theorem editOrder_not_ok_eq
    (db : DB) (actorId orderId : Nat) (status : Option String)
    (items : Option (List EditItem)) (lf : LedgerFaults) (txFault : Bool)
    (res : EditRes) (db' : DB)
    (hE : editOrder db actorId orderId status items lf txFault = (res, db'))
    (h : res.isOk = false) : db' = db := by
  unfold editOrder at hE
  split at hE
  · cases hE; rfl
  · split at hE
    · cases hE; rfl
    · split at hE
      · cases hE; rfl
      · simp only [] at hE
        split at hE
        · cases hE; simp [EditRes.isOk] at h
        · split at hE
          · cases hE; rfl
          · cases hE; simp [EditRes.isOk] at h

/-- C6: any order-edit call whose outcome is not a 200 success — a new
line referencing a nonexistent product, insufficient stock after
restoration, or a storage failure aborting the transaction — leaves the
database exactly as it was before the call (full rollback). -/
theorem edit_failure_rolls_back_everything
    (db : DB) (actorId orderId : Nat) (status : Option String)
    (items : Option (List EditItem)) (lf : LedgerFaults) (txFault : Bool)
    (res : EditRes) (db' : DB)
    (hE : editOrder db actorId orderId status items lf txFault = (res, db'))
    (h : res.isOk = false) : db' = db :=
  editOrder_not_ok_eq db actorId orderId status items lf txFault res db' hE h

/-- Witness for C6: an edit whose replacement list references nonexistent
product 5 returns a 500 and leaves the database unchanged. -/
theorem edit_failure_rolls_back_everything_witness :
    EditRes.isOk EditRes.serverError = false ∧ scenarioAfterCreate = scenarioAfterCreate :=
  ⟨by decide,
   edit_failure_rolls_back_everything scenarioAfterCreate 1 1 none (some [⟨5, 1, 50⟩])
     noLedgerFaults false EditRes.serverError scenarioAfterCreate (by decide) (by decide)⟩

/-- C10: a manual debt update by an admin with a valid body and an
existing user responds 200 "Debt updated successfully" even when the
ledger insert fails: the error is swallowed and no DebtAdjustment row is
written. -/
theorem manual_debt_update_swallows_insert_failure
    (db : DB) (actor : Actor) (userId : Nat) (debt : Int)
    (currency : Option String) (adjType : Option String) (notes : Option String)
    (hadmin : actor.isAdmin = true)
    (hvalid : validDebtBody currency adjType = true)
    (huser : (db.users.find? (fun u => u.id == userId)).isSome = true) :
    updateUserDebt db actor userId debt currency adjType notes true =
      (DebtRes.ok "Debt updated successfully" userId debt, db) := by
  have hnone : (db.users.find? (fun u => u.id == userId)).isNone = false := by
    cases hf : db.users.find? (fun u => u.id == userId) <;> simp_all
  unfold updateUserDebt
  simp [hadmin, hvalid, hnone]

/-- Witness for C10 at a concrete state: user 7 exists, the insert fails,
the response is still a 200 and the ledger is untouched. -/
theorem manual_debt_update_swallows_insert_failure_witness :
    updateUserDebt ⟨[⟨7, "client"⟩], [], [], [], []⟩ ⟨1, true⟩ 7 (-100)
        (some "EUR") none none true =
      (DebtRes.ok "Debt updated successfully" 7 (-100), ⟨[⟨7, "client"⟩], [], [], [], []⟩) :=
  manual_debt_update_swallows_insert_failure ⟨[⟨7, "client"⟩], [], [], [], []⟩ ⟨1, true⟩ 7
    (-100) (some "EUR") none none (by decide) (by decide) (by decide)

theorem insertItemsLoop_ok_characterization (failAt : Option Nat) (oid : Nat) :
    ∀ (vs : List VItem) (ps : List Product) (ois : List OrderItem) (ctr : Nat)
      (r : LoopResult), insertItemsLoop failAt oid ps ois ctr vs = r → r.ok = true →
      r.products = applyDecrements ps vs ∧ r.orderItems = ois ++ mkOrderItems oid vs := by
  intro vs
  induction vs with
  | nil =>
    intro ps ois ctr r hE _
    cases hE
    simp [insertItemsLoop, applyDecrements, mkOrderItems]
  | cons v rest ih =>
    intro ps ois ctr r hE hok
    unfold insertItemsLoop at hE
    split at hE
    · cases hE; simp at hok
    · simp only [] at hE
      split at hE
      · cases hE; simp at hok
      · have h := ih (updateStock ps v.productId (-v.quantity))
          (ois ++ [⟨oid, v.productId, v.quantity, v.price⟩]) (ctr + 2) r hE hok
        refine ⟨h.1, ?_⟩
        rw [h.2]
        simp [mkOrderItems, applyDecrements]

theorem validateItems_ok_totals (ps : List Product) :
    ∀ (its : List ReqItem) (vs : List VItem) (tot eur mkd : Int),
      validateItems ps its = Except.ok (vs, tot, eur, mkd) →
      eur = (lineTotalsByCurrency ps its).1 ∧ mkd = (lineTotalsByCurrency ps its).2 ∧
      tot = eur + mkd := by
  intro its
  induction its with
  | nil =>
    intro vs tot eur mkd hE
    unfold validateItems at hE
    cases hE
    simp [lineTotalsByCurrency]
  | cons it rest ih =>
    intro vs tot eur mkd hE
    unfold validateItems at hE
    split at hE
    · cases hE
    · rename_i p hfind
      split at hE
      · cases hE
      · split at hE
        · cases hE
        · split at hE
          · cases hE
          · rename_i vs' tot' eur' mkd' ht
            simp only [] at hE
            cases hE
            have h := ih vs' tot' eur' mkd' ht
            rcases h with ⟨h1, h2, h3⟩
            simp only [lineTotalsByCurrency, hfind]
            by_cases hc : (p.category == "smartphones") = true <;>
              simp [hc, h1, h2] <;> omega

theorem validateItems_ok_lineSum (ps : List Product) (oid : Nat) :
    ∀ (its : List ReqItem) (vs : List VItem) (tot eur mkd : Int),
      validateItems ps its = Except.ok (vs, tot, eur, mkd) →
      lineSum (mkOrderItems oid vs) = tot := by
  intro its
  induction its with
  | nil =>
    intro vs tot eur mkd hE
    unfold validateItems at hE
    cases hE
    simp [lineSum, mkOrderItems]
  | cons it rest ih =>
    intro vs tot eur mkd hE
    unfold validateItems at hE
    split at hE
    · cases hE
    · rename_i p hfind
      split at hE
      · cases hE
      · split at hE
        · cases hE
        · split at hE
          · cases hE
          · rename_i vs' tot' eur' mkd' ht
            simp only [] at hE
            cases hE
            have h := ih vs' tot' eur' mkd' ht
            simp [lineSum, mkOrderItems] at h ⊢
            rw [h]
            ring

theorem lineTotalsByCurrency_nonneg (ps : List Product) (hp : ∀ p ∈ ps, 0 ≤ p.price) :
    ∀ (its : List ReqItem), (∀ it ∈ its, 0 ≤ it.quantity) →
      0 ≤ (lineTotalsByCurrency ps its).1 ∧ 0 ≤ (lineTotalsByCurrency ps its).2 := by
  intro its
  induction its with
  | nil => intro _; simp [lineTotalsByCurrency]
  | cons it rest ih =>
    intro hq
    have hrest := ih (fun x hx => hq x (List.mem_cons_of_mem it hx))
    have hqit : (0 : Int) ≤ it.quantity := hq it (List.mem_cons_self it rest)
    unfold lineTotalsByCurrency
    cases hfind : findProduct ps it.productId with
    | none => simpa using hrest
    | some p =>
      have hmem : p ∈ ps := List.mem_of_find?_eq_some hfind
      have hprice := hp p hmem
      have hlt : (0 : Int) ≤ p.price * it.quantity := mul_nonneg hprice hqit
      by_cases hc : (p.category == "smartphones") = true <;>
        simp [hc] <;> constructor <;> omega


theorem pendingLedgerInserts_spec
    (failAt : Option Nat) (ctr : Nat) (actorId clientId0 oid : Nat)
    (eur mkd tot : Int) (db2 : DB) :
    (pendingLedgerInserts failAt ctr actorId clientId0 oid eur mkd tot db2).1 =
      CreateRes.serverError ∨
    pendingLedgerInserts failAt ctr actorId clientId0 oid eur mkd tot db2 =
      (CreateRes.created oid tot,
       { db2 with debtAdjustments := db2.debtAdjustments ++
        ((if 0 < eur then
            [⟨clientId0, -eur, "manual_reduction", some "EUR", some (pendingNotes oid), actorId⟩]
          else []) ++
         (if 0 < mkd then
            [⟨clientId0, -mkd, "manual_reduction", some "MKD", some (pendingNotes oid), actorId⟩]
          else [])) }) := by
  unfold pendingLedgerInserts
  by_cases he : (0 : Int) < eur
  · rw [if_pos he]
    by_cases hf1 : (failAt == some ctr) = true
    · rw [if_pos hf1]; left; rfl
    · rw [if_neg hf1]
      by_cases hm : (0 : Int) < mkd
      · rw [if_pos hm]
        by_cases hf2 : (failAt == some (ctr + 1)) = true
        · rw [if_pos hf2]; left; rfl
        · rw [if_neg hf2]; right; simp [he, hm]
      · rw [if_neg hm]; right; simp [he, hm]
  · rw [if_neg he]
    by_cases hm : (0 : Int) < mkd
    · rw [if_pos hm]
      by_cases hf1 : (failAt == some ctr) = true
      · rw [if_pos hf1]; left; rfl
      · rw [if_neg hf1]; right; simp [he, hm]
    · rw [if_neg hm]; right; simp [he, hm]

theorem pendingLedgerInserts_created
    (failAt : Option Nat) (ctr : Nat) (actorId clientId0 oid : Nat)
    (eur mkd tot : Int) (db2 : DB) (oid' : Nat) (tot' : Int) (db' : DB)
    (hE : pendingLedgerInserts failAt ctr actorId clientId0 oid eur mkd tot db2 =
      (CreateRes.created oid' tot', db')) :
    oid' = oid ∧ tot' = tot ∧
    db' = { db2 with debtAdjustments := db2.debtAdjustments ++
      ((if 0 < eur then
          [⟨clientId0, -eur, "manual_reduction", some "EUR", some (pendingNotes oid), actorId⟩]
        else []) ++
       (if 0 < mkd then
          [⟨clientId0, -mkd, "manual_reduction", some "MKD", some (pendingNotes oid), actorId⟩]
        else [])) } := by
  rcases pendingLedgerInserts_spec failAt ctr actorId clientId0 oid eur mkd tot db2 with h | h
  · rw [hE] at h; cases h
  · rw [hE] at h
    have h1 := congrArg Prod.fst h
    have h2 := congrArg Prod.snd h
    simp only [] at h1 h2
    injection h1 with e1 e2
    exact ⟨e1, e2, h2⟩

theorem createWrites_created
    (actor : Actor) (req : CreateReq) (failAt : Option Nat) (db : DB)
    (vitems : List VItem) (tot0 eur mkd : Int) (oid' : Nat) (tot' : Int) (db' : DB)
    (hE : createWrites actor req failAt db vitems tot0 eur mkd =
      (CreateRes.created oid' tot', db')) :
    oid' = nextOrderId db ∧ tot' = tot0 ∧
    db' = { users := db.users,
            products := applyDecrements db.products vitems,
            orders := db.orders ++ [mkNewOrder db actor req tot0],
            orderItems := db.orderItems ++ mkOrderItems (nextOrderId db) vitems,
            debtAdjustments := db.debtAdjustments ++
              createLedgerRows actor req (nextOrderId db) eur mkd } := by
  unfold createWrites at hE
  split at hE
  · cases hE
  · simp only [] at hE
    split at hE
    · cases hE
    · rename_i hok
      have hok' : (insertItemsLoop failAt (nextOrderId db)
          db.products db.orderItems 1 vitems).ok = true := by
        simpa using hok
      have hr := insertItemsLoop_ok_characterization failAt (nextOrderId db) vitems
        db.products db.orderItems 1 _ rfl hok'
      split at hE
      · rename_i hguard
        have h := pendingLedgerInserts_created _ _ _ _ _ _ _ _ _ _ _ _ hE
        refine ⟨h.1, h.2.1, ?_⟩
        rw [h.2.2]
        simp only [createLedgerRows]
        rw [if_pos hguard, hr.1, hr.2]
      · rename_i hguard
        have h1 := congrArg Prod.fst hE
        have h2 := congrArg Prod.snd hE
        simp only [] at h1 h2
        injection h1 with e1 e2
        subst e1 e2
        refine ⟨rfl, rfl, ?_⟩
        rw [← h2]
        simp only [createLedgerRows]
        rw [if_neg hguard, hr.1, hr.2]
        simp

theorem createOrder_created_characterization
    (db : DB) (actor : Actor) (req : CreateReq) (failAt : Option Nat)
    (oid : Nat) (tot : Int) (db' : DB)
    (hE : createOrder db actor req failAt = (CreateRes.created oid tot, db')) :
    validCreateReq req = true ∧ oid = nextOrderId db ∧
    ∃ vs eur mkd,
      validateItems db.products req.items = Except.ok (vs, tot, eur, mkd) ∧
      db' = { users := db.users,
              products := applyDecrements db.products vs,
              orders := db.orders ++ [mkNewOrder db actor req tot],
              orderItems := db.orderItems ++ mkOrderItems (nextOrderId db) vs,
              debtAdjustments := db.debtAdjustments ++
                createLedgerRows actor req (nextOrderId db) eur mkd } := by
  unfold createOrder at hE
  split at hE
  · cases hE
  · rename_i hvalid
    split at hE
    · cases hE
    · split at hE
      · cases hE
      · split at hE
        · cases hE
        · rename_i vs tot0 eur mkd hVI
          have h := createWrites_created actor req failAt db vs tot0 eur mkd oid tot db' hE
          obtain ⟨hoid, htot, hdb⟩ := h
          subst htot
          exact ⟨by simpa using hvalid, hoid, vs, eur, mkd, hVI, hdb⟩

/-- C1: a successful order creation for a registered, non-guest client
with status "pending" appends exactly one DebtAdjustment row per currency
with a nonzero line-total sum, with adjustment_amount the negation of that
sum (smartphone lines counted in EUR, all other lines in MKD); a
successful guest order, or one created with status "completed", appends
zero rows.  Catalog prices are nonnegative, making "nonzero" coincide with
the code's `> 0` guard. -/
theorem create_pending_client_order_ledger_rows
    (db : DB) (actor : Actor) (req : CreateReq) (failAt : Option Nat)
    (oid : Nat) (tot : Int) (db' : DB)
    (hpos : ∀ p ∈ db.products, 0 ≤ p.price)
    (hE : createOrder db actor req failAt = (CreateRes.created oid tot, db')) :
    ((req.guestName = none ∧ req.clientId.getD actor.id ≠ 0 ∧
        req.status.getD "pending" = "pending") →
      db'.debtAdjustments = db.debtAdjustments ++
        ((if (lineTotalsByCurrency db.products req.items).1 ≠ 0 then
            [⟨req.clientId.getD actor.id, -(lineTotalsByCurrency db.products req.items).1,
              "manual_reduction", some "EUR", some (pendingNotes oid), actor.id⟩]
          else []) ++
         (if (lineTotalsByCurrency db.products req.items).2 ≠ 0 then
            [⟨req.clientId.getD actor.id, -(lineTotalsByCurrency db.products req.items).2,
              "manual_reduction", some "MKD", some (pendingNotes oid), actor.id⟩]
          else []))) ∧
    ((req.guestName ≠ none ∨ req.status.getD "pending" = "completed") →
      db'.debtAdjustments = db.debtAdjustments) := by
  obtain ⟨hvr, hoid, vs, eur, mkd, hVI, hdb⟩ :=
    createOrder_created_characterization db actor req failAt oid tot db' hE
  obtain ⟨heur, hmkd, -⟩ := validateItems_ok_totals db.products req.items vs tot eur mkd hVI
  have hq : ∀ it ∈ req.items, (0 : Int) ≤ it.quantity := by
    have h := hvr
    simp only [validCreateReq, Bool.and_eq_true, List.all_eq_true, decide_eq_true_eq] at h
    intro it hit
    have := h.1.1.1.2 it hit
    omega
  have hnn := lineTotalsByCurrency_nonneg db.products hpos req.items hq
  have hdadj : db'.debtAdjustments = db.debtAdjustments ++
      createLedgerRows actor req (nextOrderId db) eur mkd := by rw [hdb]
  subst hoid
  subst heur
  subst hmkd
  constructor
  · rintro ⟨hng, hcid, hst⟩
    rw [hdadj]
    have hg : (!req.guestName.isSome && req.clientId.getD actor.id != 0 &&
        req.status.getD "pending" == "pending") = true := by
      simp [hng, hcid, hst]
    have i1 : 0 < (lineTotalsByCurrency db.products req.items).1 ↔
        (lineTotalsByCurrency db.products req.items).1 ≠ 0 := by
      have h := hnn.1; omega
    have i2 : 0 < (lineTotalsByCurrency db.products req.items).2 ↔
        (lineTotalsByCurrency db.products req.items).2 ≠ 0 := by
      have h := hnn.2; omega
    simp only [createLedgerRows]
    rw [if_pos hg]
    simp only [i1, i2]
  · intro h
    rw [hdadj]
    have hneg : ¬((!req.guestName.isSome && req.clientId.getD actor.id != 0 &&
        req.status.getD "pending" == "pending") = true) := by
      intro habs
      simp only [Bool.and_eq_true, beq_iff_eq, Bool.not_eq_true'] at habs
      rcases h with hng | hst
      · rcases hO : req.guestName with _ | g
        · exact hng hO
        · rw [hO] at habs; simp at habs
      · rw [hst] at habs
        exact absurd habs.2 (by decide)
    simp only [createLedgerRows]
    rw [if_neg hneg]
    simp

/-- Witness for C1: the scenario creation (client 7, pending, one
smartphone line of 2 × 500) appends exactly the −1000 EUR row. -/
theorem create_pending_client_order_ledger_rows_witness :
    scenarioAfterCreate.debtAdjustments =
      [⟨7, -1000, "manual_reduction", some "EUR", some (pendingNotes 1), 1⟩] := by
  have h := create_pending_client_order_ledger_rows scenarioDB scenarioAdmin scenarioCreateReq
    none 1 1000 scenarioAfterCreate (by decide) (by rfl)
  have h2 := h.1 ⟨rfl, by decide, rfl⟩
  rw [h2]
  decide

theorem pendingLedgerInserts_not_reject
    (failAt : Option Nat) (ctr : Nat) (actorId clientId0 oid : Nat)
    (eur mkd tot : Int) (db2 : DB) :
    (pendingLedgerInserts failAt ctr actorId clientId0 oid eur mkd tot db2).1.isReject
      = false := by
  rcases pendingLedgerInserts_spec failAt ctr actorId clientId0 oid eur mkd tot db2 with h | h
  · rw [h]; rfl
  · rw [h]; rfl

theorem createWrites_not_reject
    (actor : Actor) (req : CreateReq) (failAt : Option Nat) (db : DB)
    (vitems : List VItem) (tot0 eur mkd : Int) :
    (createWrites actor req failAt db vitems tot0 eur mkd).1.isReject = false := by
  unfold createWrites
  by_cases h0 : (failAt == some 0) = true
  · rw [if_pos h0]; rfl
  · rw [if_neg h0]
    simp only []
    by_cases hok : (!(insertItemsLoop failAt (nextOrderId db)
        db.products db.orderItems 1 vitems).ok) = true
    · rw [if_pos hok]; rfl
    · rw [if_neg hok]
      by_cases hg : (!req.guestName.isSome && req.clientId.getD actor.id != 0 &&
          req.status.getD "pending" == "pending") = true
      · rw [if_pos hg]
        exact pendingLedgerInserts_not_reject _ _ _ _ _ _ _ _ _
      · rw [if_neg hg]; rfl

/-- C5 (amended): order creation is atomic only against validation — a
rejected request (400/403) leaves the database untouched, and a 201 means
the entire fault-free write sequence took effect — but the mutation phase
is not wrapped in a transaction, so a storage failure mid-sequence leaves
the already-executed writes persisted (see the counterexample). -/
theorem create_rejects_write_nothing_and_created_writes_all
    (db : DB) (actor : Actor) (req : CreateReq) (failAt : Option Nat)
    (res : CreateRes) (db' : DB)
    (hE : createOrder db actor req failAt = (res, db')) :
    (res.isReject = true → db' = db) ∧
    (∀ oid tot, res = CreateRes.created oid tot →
      ∃ vs eur mkd,
        validateItems db.products req.items = Except.ok (vs, tot, eur, mkd) ∧
        db' = { users := db.users,
                products := applyDecrements db.products vs,
                orders := db.orders ++ [mkNewOrder db actor req tot],
                orderItems := db.orderItems ++ mkOrderItems (nextOrderId db) vs,
                debtAdjustments := db.debtAdjustments ++
                  createLedgerRows actor req (nextOrderId db) eur mkd }) := by
  constructor
  · intro hrej
    unfold createOrder at hE
    split at hE
    · cases hE; rfl
    · split at hE
      · cases hE; rfl
      · split at hE
        · cases hE; rfl
        · split at hE
          · cases hE; rfl
          · rename_i vs tot0 eur mkd hVI
            have hnr := createWrites_not_reject actor req failAt db vs tot0 eur mkd
            rw [hE] at hnr
            simp only [] at hnr
            rw [hrej] at hnr
            cases hnr
  · intro oid tot hres
    subst hres
    exact (createOrder_created_characterization db actor req failAt oid tot db' hE).2.2

/-- Counterexample for C5: the scenario create request with the
order-items insert (write 1) failing returns a 500 yet leaves the order
header persisted with no items — a partial write, so creation is not
all-or-nothing. -/
theorem create_not_atomic_counterexample :
    (createOrder scenarioDB scenarioAdmin scenarioCreateReq (some 1)).1 =
      CreateRes.serverError ∧
    (createOrder scenarioDB scenarioAdmin scenarioCreateReq (some 1)).2 ≠ scenarioDB ∧
    (createOrder scenarioDB scenarioAdmin scenarioCreateReq (some 1)).2.orders =
      scenarioDB.orders ++ [⟨1, some 7, none, none, none, 1000, "pending"⟩] ∧
    (createOrder scenarioDB scenarioAdmin scenarioCreateReq (some 1)).2.orderItems = [] ∧
    (createOrder scenarioDB scenarioAdmin scenarioCreateReq (some 1)).2.debtAdjustments
      = [] := by
  refine ⟨by decide, ?_, by decide, by decide, by decide⟩
  intro h
  have := congrArg (fun d => d.orders) h
  simp only [] at this
  exact absurd this (by decide)

/-- Witness for C5 (amended): a validation-rejected request (empty items
list) leaves the scenario database untouched, and the scenario's
successful creation satisfies the full-write characterization. -/
theorem create_rejects_write_nothing_witness :
    (createOrder scenarioDB scenarioAdmin ⟨[], none, none, none, none, none⟩ none).2 =
      scenarioDB :=
  (create_rejects_write_nothing_and_created_writes_all scenarioDB scenarioAdmin
      ⟨[], none, none, none, none, none⟩ none (CreateRes.badRequest "Validation failed")
      ((createOrder scenarioDB scenarioAdmin ⟨[], none, none, none, none, none⟩ none).2)
      (by decide)).1 (by decide)

theorem updateStock_map_id (ps : List Product) (pid : Nat) (d : Int) :
    (updateStock ps pid d).map (fun p => p.id) = ps.map (fun p => p.id) := by
  unfold updateStock
  rw [List.map_map]
  apply List.map_congr_left
  intro p _
  simp only [Function.comp]
  split <;> rfl

theorem updateStock_nonneg_of_nonneg_delta (ps : List Product) (pid : Nat) (d : Int)
    (hps : ∀ p ∈ ps, 0 ≤ p.stock_quantity) (hd : 0 ≤ d) :
    ∀ p ∈ updateStock ps pid d, 0 ≤ p.stock_quantity := by
  intro p' hp'
  unfold updateStock at hp'
  obtain ⟨p, hp, hfp⟩ := List.mem_map.mp hp'
  by_cases h : (p.id == pid) = true <;> simp [h] at hfp <;> rw [← hfp]
  · have := hps p hp
    simp only []
    omega
  · exact hps p hp

theorem findProduct_eq_some_mem (ps : List Product) (pid : Nat) (p : Product)
    (h : findProduct ps pid = some p) : p ∈ ps ∧ p.id = pid := by
  unfold findProduct at h
  refine ⟨List.mem_of_find?_eq_some h, ?_⟩
  have := List.find?_some h
  simpa using this

theorem findProduct_updateStock_of_ne (ps : List Product) (pid pid' : Nat) (d : Int)
    (hne : pid' ≠ pid) :
    findProduct (updateStock ps pid d) pid' = findProduct ps pid' := by
  unfold findProduct updateStock
  rw [List.find?_map]
  have hpred : ((fun p => p.id == pid') ∘
      (fun p => if p.id == pid then
        { p with stock_quantity := p.stock_quantity + d } else p)) =
      (fun (p : Product) => p.id == pid') := by
    funext p
    simp only [Function.comp]
    split <;> rfl
  rw [hpred]
  cases hf : ps.find? (fun p => p.id == pid') with
  | none => rfl
  | some p =>
    have hpid' : p.id = pid' := by simpa using List.find?_some hf
    have hcond : ¬((p.id == pid) = true) := by
      simp only [hpid', beq_iff_eq]
      exact hne
    simp only [Option.map_some']
    rw [if_neg hcond]

theorem nodup_map_id_inj (ps : List Product)
    (hnd : (ps.map (fun p => p.id)).Nodup) (p q : Product)
    (hp : p ∈ ps) (hq : q ∈ ps) (h : p.id = q.id) : p = q :=
  List.inj_on_of_nodup_map hnd hp hq h

theorem updateStock_decrement_nonneg (ps : List Product) (pid : Nat) (qty : Int)
    (p0 : Product)
    (hnd : (ps.map (fun p => p.id)).Nodup)
    (hps : ∀ p ∈ ps, 0 ≤ p.stock_quantity)
    (hfind : findProduct ps pid = some p0)
    (hq : qty ≤ p0.stock_quantity) :
    ∀ p ∈ updateStock ps pid (-qty), 0 ≤ p.stock_quantity := by
  intro p' hp'
  unfold updateStock at hp'
  obtain ⟨p, hp, hfp⟩ := List.mem_map.mp hp'
  obtain ⟨hm0, hid0⟩ := findProduct_eq_some_mem ps pid p0 hfind
  by_cases h : (p.id == pid) = true <;> simp [h] at hfp <;> rw [← hfp]
  · have hpe : p = p0 := by
      apply nodup_map_id_inj ps hnd p p0 hp hm0
      have : p.id = pid := by simpa using h
      rw [this, hid0]
    simp only []
    rw [hpe]
    omega
  · exact hps p hp

theorem applyDecrements_nonneg :
    ∀ (vs : List VItem) (ps : List Product),
      (ps.map (fun p => p.id)).Nodup →
      (∀ p ∈ ps, 0 ≤ p.stock_quantity) →
      (vs.map (fun v => v.productId)).Nodup →
      (∀ v ∈ vs, ∃ p, findProduct ps v.productId = some p ∧ v.quantity ≤ p.stock_quantity) →
      ∀ p ∈ applyDecrements ps vs, 0 ≤ p.stock_quantity := by
  intro vs
  induction vs with
  | nil => intro ps _ hps _ _; exact hps
  | cons v rest ih =>
    intro ps hnd hps hvnd hbound
    obtain ⟨p0, hf0, hb0⟩ := hbound v (List.mem_cons_self v rest)
    have hps' := updateStock_decrement_nonneg ps v.productId v.quantity p0 hnd hps hf0 hb0
    have hnd' : ((updateStock ps v.productId (-v.quantity)).map (fun p => p.id)).Nodup := by
      rw [updateStock_map_id]; exact hnd
    have hparts : (∀ x ∈ rest, ¬x.productId = v.productId) ∧
        (rest.map (fun v => v.productId)).Nodup := by simpa using hvnd
    have hvnd' := hparts.2
    have hvne : ∀ v' ∈ rest, v'.productId ≠ v.productId := fun v' hv' => hparts.1 v' hv'
    have hbound' : ∀ v' ∈ rest, ∃ p,
        findProduct (updateStock ps v.productId (-v.quantity)) v'.productId = some p ∧
        v'.quantity ≤ p.stock_quantity := by
      intro v' hv'
      obtain ⟨p, hf, hb⟩ := hbound v' (List.mem_cons_of_mem v hv')
      exact ⟨p, by rw [findProduct_updateStock_of_ne ps v.productId v'.productId
        (-v.quantity) (hvne v' hv')]; exact hf, hb⟩
    exact ih (updateStock ps v.productId (-v.quantity)) hnd' hps' hvnd' hbound'

theorem validateItems_ok_bounds (ps : List Product) :
    ∀ (its : List ReqItem) (vs : List VItem) (tot eur mkd : Int),
      validateItems ps its = Except.ok (vs, tot, eur, mkd) →
      (∀ v ∈ vs, ∃ p, findProduct ps v.productId = some p ∧
        v.quantity ≤ p.stock_quantity) ∧
      vs.map (fun v => v.productId) = its.map (fun it => it.productId) := by
  intro its
  induction its with
  | nil =>
    intro vs tot eur mkd hE
    unfold validateItems at hE
    cases hE
    simp
  | cons it rest ih =>
    intro vs tot eur mkd hE
    unfold validateItems at hE
    split at hE
    · cases hE
    · rename_i p hfind
      split at hE
      · cases hE
      · split at hE
        · cases hE
        · rename_i hstock
          split at hE
          · cases hE
          · rename_i vs' tot' eur' mkd' ht
            simp only [] at hE
            cases hE
            obtain ⟨ihb, ihm⟩ := ih vs' tot' eur' mkd' ht
            have hpid : p.id = it.productId := (findProduct_eq_some_mem ps it.productId p hfind).2
            constructor
            · intro v hv
              rcases List.mem_cons.mp hv with hv | hv
              · subst hv
                exact ⟨p, by simp only []; rw [hpid]; exact hfind, by simp only []; omega⟩
              · exact ihb v hv
            · simp only [List.map_cons, ihm, hpid]

theorem restoreStock_nonneg :
    ∀ (cur : List (OrderItem × String)) (ps : List Product),
      (∀ p ∈ ps, 0 ≤ p.stock_quantity) →
      (∀ x ∈ cur, 0 ≤ x.1.quantity) →
      ∀ p ∈ restoreStock ps cur, 0 ≤ p.stock_quantity := by
  intro cur
  induction cur with
  | nil => intro ps hps _; exact hps
  | cons x rest ih =>
    intro ps hps hq
    obtain ⟨oi, c⟩ := x
    have h0 : (0 : Int) ≤ oi.quantity := hq (oi, c) (List.mem_cons_self _ rest)
    exact ih (updateStock ps oi.product_id oi.quantity)
      (updateStock_nonneg_of_nonneg_delta ps oi.product_id oi.quantity hps h0)
      (fun y hy => hq y (List.mem_cons_of_mem _ hy))

theorem restoreStock_map_id :
    ∀ (cur : List (OrderItem × String)) (ps : List Product),
      (restoreStock ps cur).map (fun p => p.id) = ps.map (fun p => p.id) := by
  intro cur
  induction cur with
  | nil => intro ps; rfl
  | cons x rest ih =>
    intro ps
    obtain ⟨oi, c⟩ := x
    rw [restoreStock, ih, updateStock_map_id]

theorem insertEditItems_ok_nonneg (oid : Nat) :
    ∀ (its : List EditItem) (ps : List Product) (ois : List OrderItem)
      (ps2 : List Product) (ois2 : List OrderItem),
      (ps.map (fun p => p.id)).Nodup →
      (∀ p ∈ ps, 0 ≤ p.stock_quantity) →
      insertEditItems oid ps ois its = Except.ok (ps2, ois2) →
      ∀ p ∈ ps2, 0 ≤ p.stock_quantity := by
  intro its
  induction its with
  | nil =>
    intro ps ois ps2 ois2 _ hps hE
    unfold insertEditItems at hE
    cases hE
    exact hps
  | cons it rest ih =>
    intro ps ois ps2 ois2 hnd hps hE
    unfold insertEditItems at hE
    split at hE
    · cases hE
    · rename_i p0 hfind
      split at hE
      · cases hE
      · rename_i hstock
        refine ih (updateStock ps it.productId (-it.quantity)) _ ps2 ois2 ?_ ?_ hE
        · rw [updateStock_map_id]; exact hnd
        · exact updateStock_decrement_nonneg ps it.productId it.quantity p0 hnd hps hfind
            (by omega)

theorem insertEditItems_ok_items (oid : Nat) :
    ∀ (its : List EditItem) (ps : List Product) (ois : List OrderItem)
      (ps2 : List Product) (ois2 : List OrderItem),
      insertEditItems oid ps ois its = Except.ok (ps2, ois2) →
      ois2 = ois ++ its.map (fun it => (⟨oid, it.productId, it.quantity, it.price⟩ : OrderItem)) := by
  intro its
  induction its with
  | nil =>
    intro ps ois ps2 ois2 hE
    unfold insertEditItems at hE
    cases hE
    simp
  | cons it rest ih =>
    intro ps ois ps2 ois2 hE
    unfold insertEditItems at hE
    split at hE
    · cases hE
    · split at hE
      · cases hE
      · have h := ih _ _ _ _ hE
        rw [h]
        simp

theorem currentItemsJoin_mem (db : DB) (oid : Nat) (x : OrderItem × String)
    (hx : x ∈ currentItemsJoin db oid) : x.1 ∈ db.orderItems := by
  unfold currentItemsJoin at hx
  obtain ⟨oi, hoi, hf⟩ := List.mem_filterMap.mp hx
  split at hf
  · obtain ⟨p, -, hp⟩ := Option.map_eq_some'.mp hf
    rw [← hp]
    exact hoi
  · cases hf

theorem editOrder_ok_characterization
    (db : DB) (actorId orderId : Nat) (status : Option String) (newItems : List EditItem)
    (lf : LedgerFaults) (txFault : Bool) (res : EditRes) (db' : DB)
    (hE : editOrder db actorId orderId status (some newItems) lf txFault = (res, db'))
    (hok : res.isOk = true) :
    ∃ ps2 ois2,
      insertEditItems orderId
        (restoreStock (db1Of db orderId status).products
          (currentItemsJoin (db1Of db orderId status) orderId))
        ((db1Of db orderId status).orderItems.filter (fun oi => oi.order_id != orderId))
        newItems = Except.ok (ps2, ois2) ∧
      res = EditRes.ok orderId (status.getD "unchanged") true ∧
      db' = { users := (db1Of db orderId status).users,
              products := ps2,
              orders := (db1Of db orderId status).orders.map (fun o =>
                if o.id == orderId then
                  { o with total_amount :=
                      lineSum (ois2.filter (fun oi => oi.order_id == orderId)) }
                else o),
              orderItems := ois2,
              debtAdjustments := ((db1Of db orderId status).debtAdjustments ++
                remRows lf ((findOrder (db1Of db orderId status).orders orderId).bind
                  (fun o => o.client_id)) actorId orderId
                  (removedTotals (currentItemsJoin (db1Of db orderId status) orderId))) ++
                addRows lf ((findOrder (db1Of db orderId status).orders orderId).bind
                  (fun o => o.client_id)) actorId orderId
                  (addedTotals ps2 newItems) } := by
  unfold editOrder at hE
  split at hE
  · cases hE; simp [EditRes.isOk] at hok
  · split at hE
    · cases hE; simp [EditRes.isOk] at hok
    · split at hE
      · cases hE; simp [EditRes.isOk] at hok
      · simp only [] at hE
        split at hE
        · cases hE; simp [EditRes.isOk] at hok
        · rename_i ps2 ois2 hIE
          cases hE
          exact ⟨ps2, ois2, hIE, rfl, rfl⟩

theorem editOrder_ok_none_characterization
    (db : DB) (actorId orderId : Nat) (status : Option String)
    (lf : LedgerFaults) (txFault : Bool) (res : EditRes) (db' : DB)
    (hE : editOrder db actorId orderId status none lf txFault = (res, db'))
    (hok : res.isOk = true) : db' = db1Of db orderId status := by
  unfold editOrder at hE
  split at hE
  · cases hE; simp [EditRes.isOk] at hok
  · split at hE
    · cases hE; simp [EditRes.isOk] at hok
    · split at hE
      · cases hE; simp [EditRes.isOk] at hok
      · simp only [] at hE
        cases hE
        rfl

theorem db1Of_products (db : DB) (orderId : Nat) (status : Option String) :
    (db1Of db orderId status).products = db.products := by
  cases status <;> rfl

theorem db1Of_orderItems (db : DB) (orderId : Nat) (status : Option String) :
    (db1Of db orderId status).orderItems = db.orderItems := by
  cases status <;> rfl

theorem db1Of_debtAdjustments (db : DB) (orderId : Nat) (status : Option String) :
    (db1Of db orderId status).debtAdjustments = db.debtAdjustments := by
  cases status <;> rfl

/-- C9 (amended): stock_quantity stays ≥ 0 across every successful order
creation whose lines reference pairwise-distinct products, and across
every order edit; but the create route validates each line against the
pre-request stock, so a request repeating the same productId can pass
per-line validation and drive that product's stock below zero (see the
counterexample). -/
theorem stock_stays_nonneg :
    (∀ (db : DB) (actor : Actor) (req : CreateReq) (failAt : Option Nat)
       (oid : Nat) (tot : Int) (db' : DB),
       (db.products.map (fun p => p.id)).Nodup →
       (∀ p ∈ db.products, 0 ≤ p.stock_quantity) →
       (req.items.map (fun it => it.productId)).Nodup →
       createOrder db actor req failAt = (CreateRes.created oid tot, db') →
       ∀ p ∈ db'.products, 0 ≤ p.stock_quantity) ∧
    (∀ (db : DB) (actorId orderId : Nat) (status : Option String)
       (items : Option (List EditItem)) (lf : LedgerFaults) (txFault : Bool)
       (res : EditRes) (db' : DB),
       (db.products.map (fun p => p.id)).Nodup →
       (∀ p ∈ db.products, 0 ≤ p.stock_quantity) →
       (∀ oi ∈ db.orderItems, 0 ≤ oi.quantity) →
       editOrder db actorId orderId status items lf txFault = (res, db') →
       ∀ p ∈ db'.products, 0 ≤ p.stock_quantity) := by
  constructor
  · intro db actor req failAt oid tot db' hnd hps hreq hE
    obtain ⟨hvr, hoid, vs, eur, mkd, hVI, hdb⟩ :=
      createOrder_created_characterization db actor req failAt oid tot db' hE
    obtain ⟨hbound, hmap⟩ := validateItems_ok_bounds db.products req.items vs tot eur mkd hVI
    have hvnd : (vs.map (fun v => v.productId)).Nodup := by rw [hmap]; exact hreq
    rw [hdb]
    exact applyDecrements_nonneg vs db.products hnd hps hvnd hbound
  · intro db actorId orderId status items lf txFault res db' hnd hps hq hE
    by_cases hok : res.isOk = true
    · cases items with
      | none =>
        rw [editOrder_ok_none_characterization db actorId orderId status lf txFault res db'
          hE hok, db1Of_products]
        exact hps
      | some newItems =>
        obtain ⟨ps2, ois2, hIE, hres, hdb⟩ := editOrder_ok_characterization db actorId
          orderId status newItems lf txFault res db' hE hok
        rw [hdb]
        refine insertEditItems_ok_nonneg orderId newItems _ _ ps2 ois2 ?_ ?_ hIE
        · rw [restoreStock_map_id, db1Of_products]
          exact hnd
        · apply restoreStock_nonneg
          · rw [db1Of_products]; exact hps
          · intro x hx
            have hmem := currentItemsJoin_mem _ _ x hx
            rw [db1Of_orderItems] at hmem
            exact hq x.1 hmem
    · rw [editOrder_not_ok_eq db actorId orderId status items lf txFault res db' hE
        (by simpa using hok)]
      exact hps

/-- Counterexample for C9: a create request listing product 1 twice with
quantity 6 each passes per-line validation against the pre-request stock
of 10 and succeeds, leaving stock_quantity at −2. -/
theorem create_duplicate_lines_drive_stock_negative :
    (createOrder ⟨[], [⟨1, 5, "accessories", "enabled", 10⟩], [], [], []⟩ ⟨3, false⟩
      ⟨[⟨1, 6⟩, ⟨1, 6⟩], none, none, none, none, none⟩ none).1 = CreateRes.created 1 60 ∧
    (createOrder ⟨[], [⟨1, 5, "accessories", "enabled", 10⟩], [], [], []⟩ ⟨3, false⟩
      ⟨[⟨1, 6⟩, ⟨1, 6⟩], none, none, none, none, none⟩ none).2.products =
      [⟨1, 5, "accessories", "enabled", -2⟩] := by
  decide

/-- Witness for C9 (amended): the scenario creation (distinct products)
and the scenario edit both leave every stock nonnegative. -/
theorem stock_stays_nonneg_witness :
    (∀ p ∈ scenarioAfterCreate.products, 0 ≤ p.stock_quantity) ∧
    (∀ p ∈ scenarioAfterEdit.products, 0 ≤ p.stock_quantity) :=
  ⟨stock_stays_nonneg.1 scenarioDB scenarioAdmin scenarioCreateReq none 1 1000
      scenarioAfterCreate (by decide) (by decide) (by decide) (by rfl),
   stock_stays_nonneg.2 scenarioAfterCreate 1 1 none (some [⟨2, 1, 50⟩]) noLedgerFaults
      false (EditRes.ok 1 "unchanged" true) scenarioAfterEdit (by decide) (by decide)
      (by decide) (by rfl)⟩

/-- C8: after every successful write by the core — order creation and
order-item replacement — the sum of quantity × price over the order's
current OrderItem rows equals the order's stored total_amount; the edit
path persists total_amount recomputed as the sum over exactly the new
lines.  (For creation, the fresh order id must not collide with existing
rows — primary-key uniqueness in the real schema.) -/
theorem total_amount_matches_items :
    (∀ (db : DB) (actor : Actor) (req : CreateReq) (failAt : Option Nat)
       (oid : Nat) (tot : Int) (db' : DB),
       (∀ o ∈ db.orders, o.id ≠ nextOrderId db) →
       (∀ oi ∈ db.orderItems, oi.order_id ≠ nextOrderId db) →
       createOrder db actor req failAt = (CreateRes.created oid tot, db') →
       ∀ o ∈ db'.orders, o.id = oid → o.total_amount = lineSum (itemsOf db' oid)) ∧
    (∀ (db : DB) (actorId orderId : Nat) (status : Option String)
       (newItems : List EditItem) (lf : LedgerFaults) (txFault : Bool)
       (res : EditRes) (db' : DB),
       editOrder db actorId orderId status (some newItems) lf txFault = (res, db') →
       res.isOk = true →
       itemsOf db' orderId = newItems.map
         (fun it => (⟨orderId, it.productId, it.quantity, it.price⟩ : OrderItem)) ∧
       ∀ o ∈ db'.orders, o.id = orderId →
         o.total_amount = lineSum (itemsOf db' orderId)) := by
  constructor
  · intro db actor req failAt oid tot db' hfo hfi hE o ho hid
    obtain ⟨hvr, hoid, vs, eur, mkd, hVI, hdb⟩ :=
      createOrder_created_characterization db actor req failAt oid tot db' hE
    subst hoid
    have hitems : itemsOf db' (nextOrderId db) = mkOrderItems (nextOrderId db) vs := by
      rw [hdb]
      unfold itemsOf
      simp only []
      rw [List.filter_append]
      have h1 : db.orderItems.filter (fun oi => oi.order_id == nextOrderId db) = [] := by
        apply List.filter_eq_nil_iff.mpr
        intro oi hoi
        simpa using hfi oi hoi
      have h2 : (mkOrderItems (nextOrderId db) vs).filter
          (fun oi => oi.order_id == nextOrderId db) = mkOrderItems (nextOrderId db) vs := by
        apply List.filter_eq_self.mpr
        intro oi hoi
        obtain ⟨v, -, hv⟩ := List.mem_map.mp hoi
        rw [← hv]
        simp
      rw [h1, h2]
      simp
    rw [hitems,
      validateItems_ok_lineSum db.products (nextOrderId db) req.items vs tot eur mkd hVI]
    rw [hdb] at ho
    simp only [] at ho
    rcases List.mem_append.mp ho with h | h
    · exact absurd hid (hfo o h)
    · have he : o = mkNewOrder db actor req tot := by simpa using h
      rw [he]
      rfl
  · intro db actorId orderId status newItems lf txFault res db' hE hok
    obtain ⟨ps2, ois2, hIE, hres, hdb⟩ := editOrder_ok_characterization db actorId orderId
      status newItems lf txFault res db' hE hok
    have hois2 := insertEditItems_ok_items orderId newItems _ _ ps2 ois2 hIE
    have hfilter : ois2.filter (fun oi => oi.order_id == orderId) =
        newItems.map (fun it => (⟨orderId, it.productId, it.quantity, it.price⟩ : OrderItem)) := by
      rw [hois2, List.filter_append]
      have h1 : (((db1Of db orderId status).orderItems.filter
          (fun oi => oi.order_id != orderId)).filter
          (fun oi => oi.order_id == orderId)) = [] := by
        apply List.filter_eq_nil_iff.mpr
        intro oi hoi
        have := List.of_mem_filter hoi
        simpa using this
      have h2 : (newItems.map
          (fun it => (⟨orderId, it.productId, it.quantity, it.price⟩ : OrderItem))).filter
          (fun oi => oi.order_id == orderId) =
          newItems.map (fun it => (⟨orderId, it.productId, it.quantity, it.price⟩ : OrderItem)) := by
        apply List.filter_eq_self.mpr
        intro oi hoi
        obtain ⟨it, -, hit⟩ := List.mem_map.mp hoi
        rw [← hit]
        simp
      rw [h1, h2]
      simp
    have hitems : itemsOf db' orderId = newItems.map
        (fun it => (⟨orderId, it.productId, it.quantity, it.price⟩ : OrderItem)) := by
      rw [hdb]
      unfold itemsOf
      simp only []
      exact hfilter
    refine ⟨hitems, ?_⟩
    intro o ho hid
    rw [hitems]
    rw [hdb] at ho
    simp only [] at ho
    obtain ⟨o0, ho0, hf⟩ := List.mem_map.mp ho
    by_cases h : (o0.id == orderId) = true
    · rw [if_pos h] at hf
      rw [← hf]
      simp only []
      rw [hfilter]
    · rw [if_neg h] at hf
      rw [← hf] at hid
      simp [hid] at h

/-- Witness for C8: the scenario's created order stores total 1000 = its
item sum, and the scenario edit leaves exactly the new line with total
50 = its sum. -/
theorem total_amount_matches_items_witness :
    (∀ o ∈ scenarioAfterCreate.orders, o.id = 1 →
      o.total_amount = lineSum (itemsOf scenarioAfterCreate 1)) ∧
    itemsOf scenarioAfterEdit 1 = [⟨1, 2, 1, 50⟩] :=
  ⟨total_amount_matches_items.1 scenarioDB scenarioAdmin scenarioCreateReq none 1 1000
      scenarioAfterCreate (by decide) (by decide) (by rfl),
   (total_amount_matches_items.2 scenarioAfterCreate 1 1 none [⟨2, 1, 50⟩] noLedgerFaults
      false (EditRes.ok 1 "unchanged" true) scenarioAfterEdit (by rfl) (by decide)).1.trans
      (by decide)⟩

theorem keptRow_rem_eur (lf : LedgerFaults) (uid : Nat) (amt : Int) (aid oid : Nat)
    (h : 0 < amt) :
    keptRow lf ⟨uid, amt, "manual_reduction", some "EUR", some (remNotes oid), aid⟩ =
      !lf.remEur := by
  have h2 : ¬(amt < 0) := by omega
  simp [keptRow, h, h2]

theorem keptRow_rem_mkd (lf : LedgerFaults) (uid : Nat) (amt : Int) (aid oid : Nat)
    (h : 0 < amt) :
    keptRow lf ⟨uid, amt, "manual_reduction", some "MKD", some (remNotes oid), aid⟩ =
      !lf.remMkd := by
  have h2 : ¬(amt < 0) := by omega
  simp [keptRow, h, h2]

theorem keptRow_add_eur (lf : LedgerFaults) (uid : Nat) (amt : Int) (aid oid : Nat)
    (h : 0 < amt) :
    keptRow lf ⟨uid, -amt, "manual_reduction", some "EUR", some (addNotes oid), aid⟩ =
      !lf.addEur := by
  have h1 : ¬(0 < -amt) := by omega
  have h2 : -amt < 0 := by omega
  simp [keptRow, h1, h2]

theorem keptRow_add_mkd (lf : LedgerFaults) (uid : Nat) (amt : Int) (aid oid : Nat)
    (h : 0 < amt) :
    keptRow lf ⟨uid, -amt, "manual_reduction", some "MKD", some (addNotes oid), aid⟩ =
      !lf.addMkd := by
  have h1 : ¬(0 < -amt) := by omega
  have h2 : -amt < 0 := by omega
  simp [keptRow, h1, h2]

theorem removedTotals_nonneg :
    ∀ (cur : List (OrderItem × String)),
      (∀ x ∈ cur, 0 ≤ x.1.quantity ∧ 0 ≤ x.1.price) →
      0 ≤ (removedTotals cur).1 ∧ 0 ≤ (removedTotals cur).2 := by
  intro cur
  induction cur with
  | nil => intro _; simp [removedTotals]
  | cons x rest ih =>
    intro h
    obtain ⟨oi, c⟩ := x
    have hx := h (oi, c) (List.mem_cons_self _ rest)
    have hrest := ih (fun y hy => h y (List.mem_cons_of_mem _ hy))
    have hprod : (0 : Int) ≤ oi.quantity * oi.price := mul_nonneg hx.1 hx.2
    unfold removedTotals
    by_cases hc : (c == "smartphones") = true <;> simp [hc] <;> constructor <;> omega

theorem addedTotals_nonneg (ps : List Product) :
    ∀ (its : List EditItem),
      (∀ it ∈ its, 0 ≤ it.quantity ∧ 0 ≤ it.price) →
      0 ≤ (addedTotals ps its).1 ∧ 0 ≤ (addedTotals ps its).2 := by
  intro its
  induction its with
  | nil => intro _; simp [addedTotals]
  | cons it rest ih =>
    intro h
    have hx := h it (List.mem_cons_self _ rest)
    have hrest := ih (fun y hy => h y (List.mem_cons_of_mem _ hy))
    have hprod : (0 : Int) ≤ it.quantity * it.price := mul_nonneg hx.1 hx.2
    unfold addedTotals
    cases hf : findProduct ps it.productId with
    | none => simp only [hf]; constructor <;> omega
    | some p =>
      by_cases hc : (p.category == "smartphones") = true <;> simp only [hf, hc] <;>
        simp <;> constructor <;> omega

theorem remRows_pos (lf : LedgerFaults) (cid : Option Nat) (aid oid : Nat)
    (inc : Int × Int) :
    ∀ r ∈ remRows lf cid aid oid inc, 0 < r.adjustment_amount := by
  intro r hr
  unfold remRows at hr
  rcases List.mem_append.mp hr with h | h
  · split at h
    · rename_i hc
      simp only [List.mem_singleton] at h
      simp only [Bool.and_eq_true, decide_eq_true_eq] at hc
      rw [h]
      exact hc.1.1
    · simp at h
  · split at h
    · rename_i hc
      simp only [List.mem_singleton] at h
      simp only [Bool.and_eq_true, decide_eq_true_eq] at hc
      rw [h]
      exact hc.1.1
    · simp at h

theorem addRows_neg (lf : LedgerFaults) (cid : Option Nat) (aid oid : Nat)
    (dec : Int × Int) :
    ∀ r ∈ addRows lf cid aid oid dec, r.adjustment_amount < 0 := by
  intro r hr
  unfold addRows at hr
  rcases List.mem_append.mp hr with h | h
  · split at h
    · rename_i hc
      simp only [List.mem_singleton] at h
      simp only [Bool.and_eq_true, decide_eq_true_eq] at hc
      rw [h]
      have := hc.1.1
      simp only []
      omega
    · simp at h
  · split at h
    · rename_i hc
      simp only [List.mem_singleton] at h
      simp only [Bool.and_eq_true, decide_eq_true_eq] at hc
      rw [h]
      have := hc.1.1
      simp only []
      omega
    · simp at h

theorem remRows_filter_kept (lf : LedgerFaults) (cid : Option Nat) (aid oid : Nat)
    (inc : Int × Int) :
    (remRows noLedgerFaults cid aid oid inc).filter (keptRow lf) =
      remRows lf cid aid oid inc := by
  unfold remRows
  rw [List.filter_append]
  congr 1
  · by_cases p : 0 < inc.1
    · by_cases t : truthyId cid = true
      · simp only [noLedgerFaults, p, t, decide_True, Bool.true_and, Bool.not_false,
          Bool.and_true, if_true, List.filter]
        rw [keptRow_rem_eur lf (cid.getD 0) inc.1 aid oid p]
        cases lf.remEur <;> rfl
      · simp [t]
    · simp [p]
  · by_cases p : 0 < inc.2
    · by_cases t : truthyId cid = true
      · simp only [noLedgerFaults, p, t, decide_True, Bool.true_and, Bool.not_false,
          Bool.and_true, if_true, List.filter]
        rw [keptRow_rem_mkd lf (cid.getD 0) inc.2 aid oid p]
        cases lf.remMkd <;> rfl
      · simp [t]
    · simp [p]

theorem addRows_filter_kept (lf : LedgerFaults) (cid : Option Nat) (aid oid : Nat)
    (dec : Int × Int) :
    (addRows noLedgerFaults cid aid oid dec).filter (keptRow lf) =
      addRows lf cid aid oid dec := by
  unfold addRows
  rw [List.filter_append]
  congr 1
  · by_cases p : 0 < dec.1
    · by_cases t : truthyId cid = true
      · simp only [noLedgerFaults, p, t, decide_True, Bool.true_and, Bool.not_false,
          Bool.and_true, if_true, List.filter]
        rw [keptRow_add_eur lf (cid.getD 0) dec.1 aid oid p]
        cases lf.addEur <;> rfl
      · simp [t]
    · simp [p]
  · by_cases p : 0 < dec.2
    · by_cases t : truthyId cid = true
      · simp only [noLedgerFaults, p, t, decide_True, Bool.true_and, Bool.not_false,
          Bool.and_true, if_true, List.filter]
        rw [keptRow_add_mkd lf (cid.getD 0) dec.2 aid oid p]
        cases lf.addMkd <;> rfl
      · simp [t]
    · simp [p]

theorem db1Of_findOrder_client (db : DB) (orderId : Nat) (status : Option String) :
    ((findOrder (db1Of db orderId status).orders orderId).bind (fun o => o.client_id)) =
      ((findOrder db.orders orderId).bind (fun o => o.client_id)) := by
  cases status with
  | none => rfl
  | some s =>
    simp only [db1Of]
    unfold findOrder
    rw [List.find?_map]
    have hpred : ((fun o => o.id == orderId) ∘
        (fun o => if o.id == orderId then { o with status := s } else o)) =
        (fun (o : Order) => o.id == orderId) := by
      funext o
      simp only [Function.comp]
      split <;> rfl
    rw [hpred]
    cases hf : db.orders.find? (fun o => o.id == orderId) with
    | none => rfl
    | some o =>
      simp only [Option.map_some']
      cases h : (o.id == orderId) <;> simp [h]

/-- Counterexample for C3: in the scenario edit (order 1, client 7), the
DebtAdjustment appended for the removed items is +1000 EUR — a positive
amount, not negative — and the row for the added items is −50 MKD — a
negative amount, not positive. -/
theorem edit_ledger_signs_counterexample :
    scenarioAfterEdit.debtAdjustments.drop scenarioAfterCreate.debtAdjustments.length =
      [⟨7, 1000, "manual_reduction", some "EUR", some (remNotes 1), 1⟩,
       ⟨7, -50, "manual_reduction", some "MKD", some (addNotes 1), 1⟩] ∧
    ¬((1000 : Int) < 0) ∧ ¬((0 : Int) < -50) := by
  decide

/-- C3 (amended): in order-item replacement for an order with a registered
client_id, the DebtAdjustment appended for the removed (pre-edit) items
has a POSITIVE adjustment_amount in each currency whose removed-item total
is nonzero, and the DebtAdjustment appended for the newly added items has
a NEGATIVE adjustment_amount in each currency whose added-item total is
nonzero (the ledger's sign convention: positive reduces debt, negative
increases it). -/
theorem edit_ledger_rows_signs
    (db : DB) (actorId orderId : Nat) (status : Option String) (newItems : List EditItem)
    (res : EditRes) (db' : DB)
    (hsnap : ∀ oi ∈ db.orderItems, 0 ≤ oi.quantity ∧ 0 ≤ oi.price)
    (hnew : ∀ it ∈ newItems, 0 ≤ it.quantity ∧ 0 ≤ it.price)
    (hE : editOrder db actorId orderId status (some newItems) noLedgerFaults false =
      (res, db'))
    (hok : res.isOk = true) :
    ∃ ps2 ois2 remR addR,
      insertEditItems orderId
        (restoreStock db.products (currentItemsJoin (db1Of db orderId status) orderId))
        (db.orderItems.filter (fun oi => oi.order_id != orderId)) newItems =
        Except.ok (ps2, ois2) ∧
      db'.debtAdjustments = db.debtAdjustments ++ (remR ++ addR) ∧
      (∀ r ∈ remR, 0 < r.adjustment_amount) ∧
      (∀ r ∈ addR, r.adjustment_amount < 0) ∧
      (truthyId ((findOrder db.orders orderId).bind (fun o => o.client_id)) = true →
        (((removedTotals (currentItemsJoin (db1Of db orderId status) orderId)).1 ≠ 0 →
           ∃ r ∈ remR, r.currency = some "EUR" ∧ r.adjustment_amount =
             (removedTotals (currentItemsJoin (db1Of db orderId status) orderId)).1) ∧
         ((removedTotals (currentItemsJoin (db1Of db orderId status) orderId)).2 ≠ 0 →
           ∃ r ∈ remR, r.currency = some "MKD" ∧ r.adjustment_amount =
             (removedTotals (currentItemsJoin (db1Of db orderId status) orderId)).2) ∧
         ((addedTotals ps2 newItems).1 ≠ 0 →
           ∃ r ∈ addR, r.currency = some "EUR" ∧ r.adjustment_amount =
             -(addedTotals ps2 newItems).1) ∧
         ((addedTotals ps2 newItems).2 ≠ 0 →
           ∃ r ∈ addR, r.currency = some "MKD" ∧ r.adjustment_amount =
             -(addedTotals ps2 newItems).2))) := by
  obtain ⟨ps2, ois2, hIE, hres, hdb⟩ := editOrder_ok_characterization db actorId orderId
    status newItems noLedgerFaults false res db' hE hok
  rw [db1Of_products, db1Of_orderItems] at hIE
  rw [db1Of_debtAdjustments, db1Of_findOrder_client] at hdb
  have hremnn : 0 ≤ (removedTotals (currentItemsJoin (db1Of db orderId status) orderId)).1 ∧
      0 ≤ (removedTotals (currentItemsJoin (db1Of db orderId status) orderId)).2 := by
    apply removedTotals_nonneg
    intro x hx
    have hmem := currentItemsJoin_mem _ _ x hx
    rw [db1Of_orderItems] at hmem
    exact hsnap x.1 hmem
  have haddnn : 0 ≤ (addedTotals ps2 newItems).1 ∧ 0 ≤ (addedTotals ps2 newItems).2 :=
    addedTotals_nonneg ps2 newItems hnew
  refine ⟨ps2, ois2,
    remRows noLedgerFaults ((findOrder db.orders orderId).bind (fun o => o.client_id))
      actorId orderId (removedTotals (currentItemsJoin (db1Of db orderId status) orderId)),
    addRows noLedgerFaults ((findOrder db.orders orderId).bind (fun o => o.client_id))
      actorId orderId (addedTotals ps2 newItems),
    hIE, ?_, remRows_pos _ _ _ _ _, addRows_neg _ _ _ _ _, ?_⟩
  · rw [hdb]
    simp only []
    rw [List.append_assoc]
  · intro ht
    refine ⟨?_, ?_, ?_, ?_⟩
    · intro hne
      have hp : 0 < (removedTotals (currentItemsJoin (db1Of db orderId status) orderId)).1 := by
        have := hremnn.1; omega
      refine ⟨⟨(((findOrder db.orders orderId).bind (fun o => o.client_id)).getD 0),
        (removedTotals (currentItemsJoin (db1Of db orderId status) orderId)).1,
        "manual_reduction", some "EUR", some (remNotes orderId), actorId⟩, ?_, rfl, rfl⟩
      unfold remRows
      apply List.mem_append_left
      rw [if_pos (by simp [hp, ht, noLedgerFaults])]
      exact List.mem_singleton.mpr rfl
    · intro hne
      have hp : 0 < (removedTotals (currentItemsJoin (db1Of db orderId status) orderId)).2 := by
        have := hremnn.2; omega
      refine ⟨⟨(((findOrder db.orders orderId).bind (fun o => o.client_id)).getD 0),
        (removedTotals (currentItemsJoin (db1Of db orderId status) orderId)).2,
        "manual_reduction", some "MKD", some (remNotes orderId), actorId⟩, ?_, rfl, rfl⟩
      unfold remRows
      apply List.mem_append_right
      rw [if_pos (by simp [hp, ht, noLedgerFaults])]
      exact List.mem_singleton.mpr rfl
    · intro hne
      have hp : 0 < (addedTotals ps2 newItems).1 := by
        have := haddnn.1; omega
      refine ⟨⟨(((findOrder db.orders orderId).bind (fun o => o.client_id)).getD 0),
        -(addedTotals ps2 newItems).1,
        "manual_reduction", some "EUR", some (addNotes orderId), actorId⟩, ?_, rfl, rfl⟩
      unfold addRows
      apply List.mem_append_left
      rw [if_pos (by simp [hp, ht, noLedgerFaults])]
      exact List.mem_singleton.mpr rfl
    · intro hne
      have hp : 0 < (addedTotals ps2 newItems).2 := by
        have := haddnn.2; omega
      refine ⟨⟨(((findOrder db.orders orderId).bind (fun o => o.client_id)).getD 0),
        -(addedTotals ps2 newItems).2,
        "manual_reduction", some "MKD", some (addNotes orderId), actorId⟩, ?_, rfl, rfl⟩
      unfold addRows
      apply List.mem_append_right
      rw [if_pos (by simp [hp, ht, noLedgerFaults])]
      exact List.mem_singleton.mpr rfl

/-- Witness for C3 (amended): in the scenario edit, the ledger rows
appended split into a removed-items group with positive amounts and an
added-items group with negative amounts. -/
theorem edit_ledger_rows_signs_witness :
    ∃ remR addR,
      scenarioAfterEdit.debtAdjustments =
        scenarioAfterCreate.debtAdjustments ++ (remR ++ addR) ∧
      (∀ r ∈ remR, 0 < r.adjustment_amount) ∧
      (∀ r ∈ addR, r.adjustment_amount < 0) := by
  obtain ⟨ps2, ois2, remR, addR, hIE, hdadj, hpos, hneg, -⟩ :=
    edit_ledger_rows_signs scenarioAfterCreate 1 1 none [⟨2, 1, 50⟩]
      (EditRes.ok 1 "unchanged" true) scenarioAfterEdit (by decide) (by decide) (by rfl)
      (by decide)
  exact ⟨remR, addR, hdadj, hpos, hneg⟩

/-- C7: a failure of a debt-ledger insert in the order-edit path does not
abort the call — the outcome and the products, orders and order-items
tables equal those of the fault-free run (the stock mutations, item
replacement and total recomputation still commit), and the ledger rows
appended by the call are exactly the fault-free run's appended rows with
the failed inserts' rows filtered out (the other ledger writes still
commit). -/
theorem ledger_fault_swallowed_in_edit
    (db : DB) (actorId orderId : Nat) (status : Option String)
    (items : Option (List EditItem)) (lf : LedgerFaults) :
    (editOrder db actorId orderId status items lf false).1 =
      (editOrder db actorId orderId status items noLedgerFaults false).1 ∧
    (editOrder db actorId orderId status items lf false).2.products =
      (editOrder db actorId orderId status items noLedgerFaults false).2.products ∧
    (editOrder db actorId orderId status items lf false).2.orders =
      (editOrder db actorId orderId status items noLedgerFaults false).2.orders ∧
    (editOrder db actorId orderId status items lf false).2.orderItems =
      (editOrder db actorId orderId status items noLedgerFaults false).2.orderItems ∧
    (editOrder db actorId orderId status items lf false).2.debtAdjustments =
      db.debtAdjustments ++
        (((editOrder db actorId orderId status items
            noLedgerFaults false).2.debtAdjustments.drop
          db.debtAdjustments.length).filter (keptRow lf)) := by
  by_cases hv : (!validEditReq status items) = true
  · unfold editOrder
    rw [if_pos hv, if_pos hv]
    refine ⟨rfl, rfl, rfl, rfl, ?_⟩
    simp
  · unfold editOrder
    rw [if_neg hv, if_neg hv]
    by_cases hf : ((findOrder db.orders orderId).isNone) = true
    · rw [if_pos hf, if_pos hf]
      refine ⟨rfl, rfl, rfl, rfl, ?_⟩
      simp
    · rw [if_neg hf, if_neg hf]
      have hfalse : ¬((false : Bool) = true) := by decide
      rw [if_neg hfalse, if_neg hfalse]
      cases items with
      | none =>
        refine ⟨rfl, rfl, rfl, rfl, ?_⟩
        simp [db1Of_debtAdjustments]
      | some newItems =>
        simp only []
        cases hIE : insertEditItems orderId
            (restoreStock (db1Of db orderId status).products
              (currentItemsJoin (db1Of db orderId status) orderId))
            ((db1Of db orderId status).orderItems.filter
              (fun oi => oi.order_id != orderId)) newItems with
        | error e =>
          refine ⟨rfl, rfl, rfl, rfl, ?_⟩
          simp
        | ok pr =>
          obtain ⟨ps2, ois2⟩ := pr
          refine ⟨rfl, rfl, rfl, rfl, ?_⟩
          simp only []
          rw [db1Of_debtAdjustments]
          rw [List.append_assoc, List.append_assoc]
          congr 1
          have hdrop : ((db.debtAdjustments ++
              (remRows noLedgerFaults ((findOrder (db1Of db orderId status).orders
                  orderId).bind (fun o => o.client_id)) actorId orderId
                (removedTotals (currentItemsJoin (db1Of db orderId status) orderId)) ++
               addRows noLedgerFaults ((findOrder (db1Of db orderId status).orders
                  orderId).bind (fun o => o.client_id)) actorId orderId
                (addedTotals ps2 newItems))).drop db.debtAdjustments.length) =
              remRows noLedgerFaults ((findOrder (db1Of db orderId status).orders
                  orderId).bind (fun o => o.client_id)) actorId orderId
                (removedTotals (currentItemsJoin (db1Of db orderId status) orderId)) ++
              addRows noLedgerFaults ((findOrder (db1Of db orderId status).orders
                  orderId).bind (fun o => o.client_id)) actorId orderId
                (addedTotals ps2 newItems) := by
            simp
          rw [hdrop, List.filter_append, remRows_filter_kept, addRows_filter_kept]
